import Mathlib

/-!
Verification of the Legacy Archive Modernizer scripts.

This file gives a shallow embedding, in Lean, of the two core engines of the
repository: the transformation engine `scripts/modernize_archive.py`
(class ArchiveTransformer) and the analysis engine `scripts/scan_archive.py`
(class ArchiveAnalyzer), together with theorems about project-id assignment,
per-file renaming, failure handling, version-conflict detection and report
aggregation.

Modelling conventions:
- Python strings are modelled as `String`/`List Char`; the regular expressions
  used by the scripts are small and are embedded as explicit first-match-wins
  scanners with Python `re.search`/`re.sub` semantics (leftmost match,
  alternatives tried in order, greedy repetition). Character classes such as
  `\d`, `\s`, `[a-zA-Z]` are read over ASCII, which is the alphabet the
  scripts are written against.
- Filesystem effects (mkdir, shutil.copy2) are modelled by an outcome recorded
  on each file: field `ok` says whether the copy would succeed and `err` is
  the error detail raised on failure.
- Python exceptions that escape a function are modelled with `Except String`:
  a `KeyError`/`TypeError`/`ValueError` raised by the code becomes
  `Except.error` carrying the corresponding message.
- Modification times are modelled as natural numbers (the scripts only compare
  them), sizes as natural numbers, and the float arithmetic of the report
  percentages as exact rational arithmetic with an explicit round-half-to-even
  at two decimals mirroring Python round(x, 2).
-/

deriving instance DecidableEq for Except

namespace Archive

/-- Python whitespace class, the characters matched by the regex token `\s`. -/
def isPySpace (c : Char) : Bool :=
  c = ' ' || c = '\t' || c = '\n' || c = '\r' || c = '\x0b' || c = '\x0c'

/-- Characters matched by `[rR]`. -/
def isRchar (c : Char) : Bool := c = 'r' || c = 'R'

/-- Characters matched by `[vV]`. -/
def isVchar (c : Char) : Bool := c = 'v' || c = 'V'

/-- Characters matched by `[eE]` (used by case-insensitive alternatives). -/
def isEchar (c : Char) : Bool := c = 'e' || c = 'E'

/-- Characters matched by `[A-Z]`. -/
def isUpperAZ (c : Char) : Bool := 'A' ≤ c && c ≤ 'Z'

/-- Characters matched by `[a-zA-Z]`. -/
def isAlphaAZ (c : Char) : Bool := isUpperAZ c || ('a' ≤ c && c ≤ 'z')

/-- Characters matched by `[a-zA-Z0-9]`. -/
def isAlnumAZ (c : Char) : Bool := isAlphaAZ c || c.isDigit

/-- Substring containment on character lists, modelling the Python operator
`in` on strings. -/
def listHasSub (hay needle : List Char) : Bool :=
  match hay with
  | [] => needle.isEmpty
  | _ :: t => needle.isPrefixOf hay || listHasSub t needle

/-- Substring containment on strings. -/
def strHasSub (hay needle : String) : Bool :=
  listHasSub hay.toList needle.toList

/-- Python str.lower over ASCII. -/
def lowerStr (s : String) : String := String.mk (s.toList.map Char.toLower)

/-- Case-insensitive prefix test: does `l` start with `pat` up to ASCII case?
The pattern is given in lowercase. -/
def ciPrefix : List Char → List Char → Bool
  | [], _ => true
  | _ :: _, [] => false
  | p :: ps, c :: cs => (Char.toLower c = p) && ciPrefix ps cs

/-- Embedding of ArchiveTransformer._determine_type_code
(modernize_archive.py lines 285-312): keyword pass assigning the semantic
type code from extension and lowercased filename. -/
def determine_type_code (filename extension : String) : String :=
  let fl := lowerStr filename
  if extension = ".dwg" then
    if strHasSub fl "assembly" || strHasSub fl "asm" || strHasSub fl "main" then "ASM" else "PRT"
  else if extension = ".pdf" then
    if strHasSub fl "spec" || strHasSub fl "requirement" || strHasSub fl "standard" then "SPEC"
    else "DOC"
  else if extension = ".xlsx" || extension = ".xls" then
    if strHasSub fl "bom" || strHasSub fl "bill" || strHasSub fl "material" then "BOM" else "DATA"
  else "MISC"

/-- Leftmost `re.search`: try the position matcher at each successive start
position, first success wins. All patterns used by the scripts need at least
one character, so the empty tail never matches. -/
def searchScan (f : List Char → Option (List Char)) : List Char → Option (List Char)
  | [] => none
  | c :: rest =>
    match f (c :: rest) with
    | some g => some g
    | none => searchScan f rest

/-- Capture of a `(\d+)` group at this position: the greedy nonempty digit
run. -/
def digitGroup (l : List Char) : Option (List Char) :=
  let ds := l.takeWhile Char.isDigit
  if ds.isEmpty then none else some ds

/-- Position matcher for the pattern `[rR]ev\s*(\d+)` of _extract_revision;
returns the digit group. -/
def matchRevNumAt : List Char → Option (List Char)
  | c1 :: 'e' :: 'v' :: rest =>
    if isRchar c1 then digitGroup (rest.dropWhile isPySpace) else none
  | _ => none

/-- Position matcher for the pattern `[rR](\d+)` of _extract_revision. -/
def matchRNumAt : List Char → Option (List Char)
  | c1 :: rest => if isRchar c1 then digitGroup rest else none
  | [] => none

/-- Position matcher for the pattern `[vV]\s*(\d+)` of _extract_revision. -/
def matchVNumAt : List Char → Option (List Char)
  | c1 :: rest => if isVchar c1 then digitGroup (rest.dropWhile isPySpace) else none
  | [] => none

/-- Position matcher for the pattern `Rev\s*([A-Z])` of _extract_revision. -/
def matchRevLetterAt : List Char → Option (List Char)
  | 'R' :: 'e' :: 'v' :: rest =>
    match rest.dropWhile isPySpace with
    | c :: _ => if isUpperAZ c then some [c] else none
    | [] => none
  | _ => none

/-- Position matcher for the pattern `_(\d+)(?=\.[^.]*$)` of _extract_revision:
an underscore, a digit run, then a lookahead requiring a final dot segment. -/
def matchTrailNumAt : List Char → Option (List Char)
  | '_' :: rest =>
    match digitGroup rest with
    | none => none
    | some ds =>
      match rest.dropWhile Char.isDigit with
      | '.' :: tail => if tail.all (fun c => c ≠ '.') then some ds else none
      | _ => none
  | _ => none

/-- First matching group over the ordered pattern list of _extract_revision
(modernize_archive.py lines 319-325), each pattern searched over the whole
filename, patterns tried in order. -/
def revGroup (l : List Char) : Option (List Char) :=
  match searchScan matchRevNumAt l with
  | some g => some g
  | none =>
    match searchScan matchRNumAt l with
    | some g => some g
    | none =>
      match searchScan matchVNumAt l with
      | some g => some g
      | none =>
        match searchScan matchRevLetterAt l with
        | some g => some g
        | none => searchScan matchTrailNumAt l

/-- Fuel-driven decimal digits of a natural number, most significant first;
the fuel bounds the recursion depth and n + 1 units always suffice. -/
def natDigitsAux : Nat → Nat → List Char
  | 0, _ => []
  | fuel + 1, n =>
    if n < 10 then [Char.ofNat (48 + n)]
    else natDigitsAux fuel (n / 10) ++ [Char.ofNat (48 + n % 10)]

/-- Decimal digits of a natural number, the Python str of an int. -/
def natDecimal (n : Nat) : List Char := natDigitsAux (n + 1) n

/-- Embedding of ArchiveTransformer._extract_revision
(modernize_archive.py lines 314-336): digit groups are kept verbatim after an
R prefix, a letter group maps A to 1, B to 2 and so on, and the default is R1. -/
def extract_revision (filename : String) : String :=
  match revGroup filename.toList with
  | none => "R1"
  | some g =>
    if g.all Char.isDigit then "R" ++ String.mk g
    else "R" ++ String.mk (natDecimal ((g.headD 'A').toUpper.toNat - 'A'.toNat + 1))

/-- Characters matched by `[_\s]`. -/
def isUSp (c : Char) : Bool := c = '_' || isPySpace c

/-- Characters matched by `[_\s/\\]`, the separator class of the split in the
year rule of _identify_project_from_path. -/
def isSplitSep (c : Char) : Bool := c = '_' || isPySpace c || c = '/' || c = '\\'

/-- Relative paths are modelled by their pathlib parts; the textual form of the
path of the scan root itself (no parts) is the string ".". -/
def pathStr (parts : List String) : String :=
  match parts with
  | [] => "."
  | _ :: _ => String.intercalate "/" parts

/-- Position matcher for `project[_\s]*([a-zA-Z]+)` with re.IGNORECASE:
the literal word, optional separators, then the letter group. -/
def projWordAt (l : List Char) : Option (List Char) :=
  if ciPrefix "project".toList l then
    let w := ((l.drop 7).dropWhile isUSp).takeWhile isAlphaAZ
    if w.isEmpty then none else some w
  else none

/-- Position matcher for `(20\d{2})`, the year token. -/
def yearAt : List Char → Option (List Char)
  | '2' :: '0' :: c3 :: c4 :: _ =>
    if c3.isDigit && c4.isDigit then some ['2', '0', c3, c4] else none
  | _ => none

/-- Position matcher for `20\d{2}[_\s]*` used by the year-removal re.sub;
returns the length of the match. -/
def yearSubAt : List Char → Option Nat
  | '2' :: '0' :: c3 :: c4 :: rest =>
    if c3.isDigit && c4.isDigit then some (4 + (rest.takeWhile isUSp).length) else none
  | _ => none

/-- Fuel-driven worker for `re.sub(pattern, empty, s)`: scan left to right,
delete each leftmost match and continue after it. The fuel starts at the
length of the list, and every step either advances one character or deletes a
nonempty match, so the fuel never runs out on the initial call. -/
def subAllF (m : List Char → Option Nat) : Nat → List Char → List Char
  | _, [] => []
  | 0, l => l
  | fuel + 1, c :: rest =>
    match m (c :: rest) with
    | some n => subAllF m fuel ((c :: rest).drop n)
    | none => c :: subAllF m fuel rest

/-- Replace every match of the position matcher by the empty string. -/
def subAll (m : List Char → Option Nat) (l : List Char) : List Char :=
  subAllF m l.length l

/-- Greedy position matcher for `([A-Z]{2,4})[-_]` at a fixed repetition
count k: k uppercase letters followed by a dash or underscore. -/
def tryCode (k : Nat) (l : List Char) : Option (List Char) :=
  let pre := l.take k
  if pre.length = k && pre.all isUpperAZ &&
      (match l.drop k with
       | c :: _ => c = '-' || c = '_'
       | [] => false) then
    some pre
  else none

/-- Position matcher for `([A-Z]{2,4})[-_]`: greedy, so four letters are tried
before three before two. -/
def codeAt (l : List Char) : Option (List Char) :=
  match tryCode 4 l with
  | some g => some g
  | none =>
    match tryCode 3 l with
    | some g => some g
    | none => tryCode 2 l

/-- Python str.title over ASCII: an alphabetic character is uppercased when the
previous character is not alphabetic and lowercased otherwise. The Boolean
argument records whether the previous character was alphabetic. -/
def pyTitleAux : Bool → List Char → List Char
  | _, [] => []
  | prevAlpha, c :: rest =>
    if isAlphaAZ c then
      (if prevAlpha then c.toLower else c.toUpper) :: pyTitleAux true rest
    else c :: pyTitleAux false rest

/-- Python str.title over ASCII. -/
def pyTitle (l : List Char) : List Char := pyTitleAux false l

/-- Hidden path parts are those starting with a dot. -/
def isHiddenPart (s : String) : Bool :=
  match s.toList with
  | '.' :: _ => true
  | _ => false

/-- Pattern 4 of _identify_project_from_path: first non-hidden path part,
spaces replaced by underscores, then title-cased; the sentinel when no part
remains. -/
def identifyP4 (parts : List String) : String :=
  match parts.filter (fun s => s ≠ "" && !(isHiddenPart s)) with
  | [] => "Unknown_Project"
  | p0 :: _ =>
    String.mk (pyTitle (p0.toList.map (fun c => if c = ' ' then '_' else c)))

/-- Pattern 3 of _identify_project_from_path: a 2-4 letter uppercase code
followed by a separator anywhere in the path string. -/
def identifyP3 (pl : List Char) (parts : List String) : String :=
  match searchScan codeAt pl with
  | some g => String.mk g
  | none => identifyP4 parts

/-- Pattern 2 of _identify_project_from_path, the year rule: take the first
year token, delete every year occurrence together with the separators directly
following it, and combine the year with the first separator-delimited token of
what remains; with nothing remaining the key is the bare Project year. -/
def identifyP2 (pl : List Char) (parts : List String) : String :=
  match searchScan yearAt pl with
  | some yc =>
    let remaining := subAll yearSubAt pl
    if remaining.isEmpty then "Project_" ++ String.mk yc
    else
      String.mk (remaining.takeWhile (fun c => !(isSplitSep c))) ++ "_" ++ String.mk yc
  | none => identifyP3 pl parts

/-- Embedding of ArchiveTransformer._identify_project_from_path
(modernize_archive.py lines 123-155): the four ordered path heuristics with
the Unknown_Project fallback. When the word project occurs but the full
pattern 1 regex has no match, control falls through to pattern 2, exactly as
in the source. -/
def identify_project_from_path (parts : List String) : String :=
  let pl := (pathStr parts).toList
  if strHasSub (lowerStr (pathStr parts)) "project" then
    match searchScan projWordAt pl with
    | some w => String.mk (pyTitle w)
    | none => identifyP2 pl parts
  else identifyP2 pl parts

/-- Embedding of ArchiveTransformer._extract_year_from_path
(modernize_archive.py lines 157-165): value of the first year token, with the
fallback year 2020. -/
def extract_year (parts : List String) : Nat :=
  match searchScan yearAt (pathStr parts).toList with
  | some ('2' :: '0' :: c3 :: c4 :: []) => 2000 + 10 * (c3.toNat - 48) + (c4.toNat - 48)
  | _ => 2020

/-- Python pathlib suffix of a file name, lowercase not yet applied: the part
from the last dot on, empty when the dot is missing, leading or trailing. -/
def pathSuffix (name : String) : String :=
  let l := name.toList
  let after := l.reverse.takeWhile (fun c => c ≠ '.')
  if after.length = l.length then ""
  else if after.isEmpty then ""
  else if after.length + 1 = l.length then ""
  else String.mk ('.' :: after.reverse)

/-- Characters matched by `[-_\s]`, the separator class collapsed by the
cleanup steps. -/
def isDashSep (c : Char) : Bool := c = '-' || c = '_' || isPySpace c

/-- Length of a match of `[vV]?\d+` at this position (case folding leaves the
class unchanged). When the optional letter is not followed by a digit the
whole alternative fails, since backtracking to the empty option still needs a
digit at the letter. -/
def alt1Len (l : List Char) : Option Nat :=
  match l with
  | [] => none
  | c :: rest =>
    if isVchar c then
      let ds := rest.takeWhile Char.isDigit
      if ds.isEmpty then none else some (1 + ds.length)
    else
      let ds := (c :: rest).takeWhile Char.isDigit
      if ds.isEmpty then none else some ds.length

/-- Length of a match of `[rR]ev?\d*` under re.IGNORECASE at this position:
once the two leading letters match, the optional letter and the digit run are
taken greedily and the alternative always succeeds. -/
def alt2StarLen (l : List Char) : Option Nat :=
  match l with
  | c1 :: c2 :: rest =>
    if isRchar c1 && isEchar c2 then
      match rest with
      | [] => some 2
      | v :: rest2 =>
        if isVchar v then some (3 + (rest2.takeWhile Char.isDigit).length)
        else some (2 + ((v :: rest2).takeWhile Char.isDigit).length)
    else none
  | _ => none

/-- Length of a match of `[rR]ev?\d+` under re.IGNORECASE at this position:
at least one digit is required, and when the optional letter is present but no
digit follows it, backtracking to the shorter option still fails because the
letter is not a digit. -/
def alt2PlusLen (l : List Char) : Option Nat :=
  match l with
  | c1 :: c2 :: rest =>
    if isRchar c1 && isEchar c2 then
      match rest with
      | [] => none
      | v :: rest2 =>
        if isVchar v then
          let ds := rest2.takeWhile Char.isDigit
          if ds.isEmpty then none else some (3 + ds.length)
        else
          let ds := (v :: rest2).takeWhile Char.isDigit
          if ds.isEmpty then none else some (2 + ds.length)
    else none
  | _ => none

/-- Position matcher of the version-token regex of _generate_description
(modernize_archive.py line 349): `[vV]?\d+|[rR]ev?\d*|final|FINAL|actualfinal`
with re.IGNORECASE, alternatives tried in order; the FINAL alternative is
indistinguishable from final under case folding. -/
def descTokAt (l : List Char) : Option Nat :=
  match alt1Len l with
  | some n => some n
  | none =>
    match alt2StarLen l with
    | some n => some n
    | none =>
      if ciPrefix "final".toList l then some 5
      else if ciPrefix "actualfinal".toList l then some 11
      else none

/-- Position matcher of the version-token regex of _detect_version_conflicts
(scan_archive.py line 172): `[vV]?\d+|[rR]ev?\d+|final|FINAL|actualfinal`
with re.IGNORECASE. -/
def confTokAt (l : List Char) : Option Nat :=
  match alt1Len l with
  | some n => some n
  | none =>
    match alt2PlusLen l with
    | some n => some n
    | none =>
      if ciPrefix "final".toList l then some 5
      else if ciPrefix "actualfinal".toList l then some 11
      else none

/-- Position matcher of the type-indicator regex of _generate_description
(line 353): `dwg|pdf|xlsx?|assembly|asm|part|prt` with re.IGNORECASE; the
optional letter of xlsx? is greedy. -/
def typeWordAt (l : List Char) : Option Nat :=
  if ciPrefix "dwg".toList l then some 3
  else if ciPrefix "pdf".toList l then some 3
  else if ciPrefix "xlsx".toList l then some 4
  else if ciPrefix "xls".toList l then some 3
  else if ciPrefix "assembly".toList l then some 8
  else if ciPrefix "asm".toList l then some 3
  else if ciPrefix "part".toList l then some 4
  else if ciPrefix "prt".toList l then some 3
  else none

/-- Removal of the final dot segment of a name; names without a dot are kept. -/
def dropExt (l : List Char) : List Char :=
  if l.contains '.' then ((l.reverse.dropWhile (fun c => c ≠ '.')).drop 1).reverse
  else l

/-- Removal of a leading `[A-Z]{2,4}[-_]` code prefix together with its
separator (line 352), greedy on the letter count. -/
def dropCodePre (l : List Char) : List Char :=
  match tryCode 4 l with
  | some _ => l.drop 5
  | none =>
    match tryCode 3 l with
    | some _ => l.drop 4
    | none =>
      match tryCode 2 l with
      | some _ => l.drop 3
      | none => l

/-- Worker collapsing every `[-_\s]+` run into one underscore; the Boolean
records whether a separator run is in progress. -/
def collapseAux : Bool → List Char → List Char
  | _, [] => []
  | inSep, c :: rest =>
    if isDashSep c then
      if inSep then collapseAux true rest else '_' :: collapseAux true rest
    else c :: collapseAux false rest

/-- Collapse every separator run into a single underscore, the
`re.sub(separators, underscore, s)` of both scripts. -/
def collapseSeps (l : List Char) : List Char := collapseAux false l

/-- Python strip of leading and trailing underscores. -/
def stripUnders (l : List Char) : List Char :=
  ((l.dropWhile (fun c => c = '_')).reverse.dropWhile (fun c => c = '_')).reverse

/-- Python split on single underscores, keeping empty words. -/
def splitU (l : List Char) : List (List Char) :=
  l.foldr
    (fun c acc =>
      match acc with
      | [] => [[c]]
      | w :: ws => if c = '_' then [] :: w :: ws else (c :: w) :: ws)
    [[]]

/-- Python str.capitalize over ASCII: first character uppercased, the rest
lowercased. -/
def pyCapitalize (w : List Char) : List Char :=
  match w with
  | [] => []
  | c :: rest => c.toUpper :: rest.map Char.toLower

/-- Defaults table of _generate_description for results shorter than three
characters, with the dict.get fallback File. -/
def descDefault (tc : String) : String :=
  if tc = "ASM" then "MainAssembly"
  else if tc = "PRT" then "Component"
  else if tc = "SPEC" then "Specification"
  else if tc = "BOM" then "BillOfMaterials"
  else if tc = "DOC" then "Document"
  else if tc = "DATA" then "DataSheet"
  else "File"

/-- Embedding of ArchiveTransformer._generate_description
(modernize_archive.py lines 338-374). Modelled from the spec for one regex:
the extension-stripping pattern on source line 346 is textually corrupted in
the repository (an unterminated string literal), so following section 4.11 of
the spec, strip extension, it is embedded as removal of the final dot
segment. Every later step follows the source: version tokens, a leading
uppercase code prefix and type-indicator words are removed, separator runs
are collapsed, a result shorter than three characters falls back to the
type-code default, and the underscore-split words are capitalized, joined
without separators and truncated to 30 characters. -/
def generate_description (filename : String) (tc : String) : String :=
  let s1 := dropExt filename.toList
  let s2 := subAll descTokAt s1
  let s3 := dropCodePre s2
  let s4 := subAll typeWordAt s3
  let s5 := stripUnders (collapseSeps s4)
  let s6 := if s5.length < 3 then (descDefault tc).toList else s5
  String.mk (((splitU s6).map pyCapitalize).flatten.take 30)

/-- Characters replaced by the sanitization step of _transform_file
(modernize_archive.py line 253), the filesystem-reserved set. -/
def isReservedChar (c : Char) : Bool :=
  c = '<' || c = '>' || c = ':' || c = '"' || c = '/' || c = '\\' ||
    c = '|' || c = '?' || c = '*'

/-- Embedding of the re.sub on line 253: every reserved character of the
composed filename becomes an underscore. -/
def sanitize_name (s : String) : String :=
  String.mk (s.toList.map (fun c => if isReservedChar c then '_' else c))

/-- Python format with a zero-padded width, as used for project ids and
sequence numbers. -/
def zeroPad (w : Nat) (n : Nat) : String :=
  let s := natDecimal n
  String.mk (List.replicate (w - s.length) '0' ++ s)

/-- Default file_type_mapping of the transformation rules: extension to
category, with the dict.get fallback misc. -/
def file_type_mapping (ext : String) : String :=
  if ext = ".dwg" then "drawings"
  else if ext = ".pdf" then "documentation"
  else if ext = ".xlsx" then "bom"
  else if ext = ".xls" then "bom"
  else if ext = ".doc" then "documentation"
  else if ext = ".docx" then "documentation"
  else "misc"

/-- Default folder_structure of the transformation rules: category to target
subfolder name, with the dict.get fallback Misc. -/
def folder_structure_name (cat : String) : String :=
  if cat = "drawings" then "Drawings"
  else if cat = "documentation" then "Documentation"
  else if cat = "bom" then "BOM"
  else if cat = "standards" then "Standards"
  else "Misc"

/-- Per-file record built by _discover_projects: name, lowercased pathlib
suffix, size, modification time, the textual relative path of the containing
folder, and the modelled copy outcome: ok says whether shutil.copy2 would
succeed on this file and err is the error detail it raises on failure. -/
structure FInfo where
  filename : String
  extension : String
  size : Nat
  mtime : Nat
  folder : String
  ok : Bool
  err : String
deriving DecidableEq

/-- Entry appended to transformation_log by _transform_file. On success the
status is true, the new filename is present and the error is absent; on
failure the status is false, the error detail is present and the source dict
records no new filename. The seq field keeps the value of the local variable
sequence that the function formatted into the composed name. Wall-clock
timestamps and the absolute source and target path echoes are not modelled;
the Python FAILED dict also omits the file_size key, which the report reads
only on success entries. -/
structure LogEntry where
  original_filename : String
  new_filename : Option String
  target_dir : String
  project_id : String
  file_size : Nat
  seq : Nat
  status : Bool
  error : Option String
deriving DecidableEq

/-- Lookup in a Python dict modelled as an association list in insertion
order; none models a KeyError. -/
def ctrGet (k : String) : List (String × Nat) → Option Nat
  | [] => none
  | (k2, v) :: rest => if k2 = k then some v else ctrGet k rest

/-- Increment of the counter bound to the key. -/
def ctrBump (k : String) : List (String × Nat) → List (String × Nat)
  | [] => []
  | (k2, v) :: rest => if k2 = k then (k2, v + 1) :: rest else (k2, v) :: ctrBump k rest

/-- Counter table created per project on line 213 of modernize_archive.py;
the type codes DOC and DATA are absent from it. -/
def init_file_counters : List (String × Nat) :=
  [("ASM", 1), ("PRT", 1), ("SPEC", 1), ("BOM", 1), ("MISC", 1)]

/-- Embedding of ArchiveTransformer._transform_file (modernize_archive.py
lines 220-283). The counter subscript file_counters[type_code] on line 242
sits outside the try block, so a type code missing from the table raises
KeyError, modelled as Except.error, which aborts the caller. The copy outcome
is the modelled ok field of the file: on failure a FAILED entry carrying the
error detail is appended and the counters are returned unchanged; on success
the counter of the type code is incremented. The composed name instantiates
the default naming_convention template and is then sanitized. -/
def transform_file (f : FInfo) (project_id : String) (ctrs : List (String × Nat)) :
    Except String (List (String × Nat) × LogEntry) :=
  let file_category := file_type_mapping f.extension
  let target_dir := folder_structure_name file_category
  let type_code := determine_type_code f.filename f.extension
  let revision := extract_revision f.filename
  let description := generate_description f.filename type_code
  match ctrGet type_code ctrs with
  | none => .error ("KeyError: " ++ type_code)
  | some n =>
    let sequence := zeroPad 3 n
    let new_filename := sanitize_name
      (project_id ++ "-" ++ type_code ++ "-" ++ sequence ++ "_" ++ description ++ "_" ++
        revision ++ "." ++ String.mk (f.extension.toList.drop 1))
    if f.ok then
      .ok (ctrBump type_code ctrs,
        { original_filename := f.filename, new_filename := some new_filename,
          target_dir := target_dir, project_id := project_id, file_size := f.size,
          seq := n, status := true, error := none })
    else
      .ok (ctrs,
        { original_filename := f.filename, new_filename := none,
          target_dir := target_dir, project_id := project_id, file_size := f.size,
          seq := n, status := false, error := some f.err })

/-- Processing of the file list of one project, the loop on lines 215-216:
entries are appended in order, the counter table threads left to right, and a
raised KeyError aborts the loop and the whole run. -/
def transform_files : List FInfo → String → List (String × Nat) →
    Except String (List (String × Nat) × List LogEntry)
  | [], _, ctrs => .ok (ctrs, [])
  | f :: rest, pid, ctrs =>
    match transform_file f pid ctrs with
    | .error e => .error e
    | .ok (ctrs2, entry) =>
      match transform_files rest pid ctrs2 with
      | .error e => .error e
      | .ok (ctrs3, entries) => .ok (ctrs3, entry :: entries)

/-- Project group built by _discover_projects. -/
structure Project where
  original_name : String
  files : List FInfo
  source_folders : List String
  year : Nat
deriving DecidableEq

/-- Value stored into project_mappings by _transform_project. -/
structure Mapping where
  new_id : String
  folder_name : String
deriving DecidableEq

/-- Mutable state of the ArchiveTransformer object threaded through a run:
the project counter, the mapping table in insertion order and the
transformation log. -/
structure TState where
  project_counter : Nat
  project_mappings : List (String × Mapping)
  log : List LogEntry
deriving DecidableEq

/-- State of a fresh ArchiveTransformer (constructor lines 32-34). -/
def init_tstate : TState :=
  { project_counter := 1, project_mappings := [], log := [] }

/-- Embedding of ArchiveTransformer._transform_project (modernize_archive.py
lines 181-218) under the default rules (prefix P, width 3): format the new
canonical id from the running counter, build the folder name from the
alphanumeric-only original name and the year, append the mapping, process the
files against a fresh counter table, and advance the project counter.
Directory creation is a filesystem effect and is not modelled. -/
def transform_project (p : Project) (st : TState) : Except String TState :=
  let new_project_id := "P" ++ zeroPad 3 st.project_counter
  let clean_name := String.mk (p.original_name.toList.filter isAlnumAZ)
  let folder_name := new_project_id ++ "_" ++ clean_name ++ "_" ++ String.mk (natDecimal p.year)
  match transform_files p.files new_project_id init_file_counters with
  | .error e => .error e
  | .ok (_, entries) =>
    .ok { project_counter := st.project_counter + 1,
          project_mappings := st.project_mappings ++
            [(p.original_name, { new_id := new_project_id, folder_name := folder_name })],
          log := st.log ++ entries }

/-- Source file as seen by the directory walk: name and metadata plus the
modelled copy outcome. -/
structure SrcFile where
  name : String
  size : Nat
  mtime : Nat
  ok : Bool
  err : String
deriving DecidableEq

/-- One os.walk output entry: the parts of the relative path of a folder and
the regular files inside it. The order of the walk entries is the traversal
order, which the determinism claims fix. -/
structure WalkEntry where
  parts : List String
  files : List SrcFile
deriving DecidableEq

/-- File record constructed on lines 107-118 of modernize_archive.py. -/
def mkFInfo (parts : List String) (s : SrcFile) : FInfo :=
  { filename := s.name, extension := lowerStr (pathSuffix s.name), size := s.size,
    mtime := s.mtime, folder := pathStr parts, ok := s.ok, err := s.err }

/-- Insertion into the discovered-projects dict: a new key is appended with
the year of its first folder; an existing key accumulates files, and the
folder set accumulates distinct folder strings in insertion order. -/
def discAdd (pid : String) (year : Nat) (folder : String) (fs : List FInfo) :
    List (String × Project) → List (String × Project)
  | [] => [(pid, { original_name := pid, files := fs, source_folders := [folder], year := year })]
  | (k, pr) :: rest =>
    if k = pid then
      (k, { pr with
            files := pr.files ++ fs,
            source_folders :=
              if pr.source_folders.contains folder then pr.source_folders
              else pr.source_folders ++ [folder] }) :: rest
    else (k, pr) :: discAdd pid year folder fs rest

/-- Embedding of ArchiveTransformer._discover_projects (modernize_archive.py
lines 80-121): walk entries without files are skipped, every other folder is
keyed by the path heuristic, and the dict keeps keys in first-encounter order
with files appended in traversal order. -/
def discover_projects (tree : List WalkEntry) : List (String × Project) :=
  tree.foldl
    (fun acc e =>
      match e.files with
      | [] => acc
      | _ :: _ =>
        discAdd (identify_project_from_path e.parts) (extract_year e.parts) (pathStr e.parts)
          (e.files.map (mkFInfo e.parts)) acc)
    []

/-- Rounding of the ratio of two naturals to the nearest integer with ties to
even, by integer arithmetic: the Python round applied to a nonnegative exact
quotient. -/
def halfEvenDiv (a b : Nat) : Nat :=
  if 2 * (a % b) < b then a / b
  else if b < 2 * (a % b) then a / b + 1
  else if (a / b) % 2 = 0 then a / b else a / b + 1

/-- Python round(100 * succ / total, 2) as an exact rational, computed by
integer arithmetic: the quotient scaled to hundredths, rounded half to even,
and scaled back. -/
def rate2dp (succ total : Nat) : ℚ := (halfEvenDiv (10000 * succ) total : ℚ) / 100

/-- Transformation report summary (lines 389-404): wall-clock timestamp and
path echoes are not modelled and the total size is kept in bytes rather than
rounded megabytes. -/
structure TReport where
  total_files_processed : Nat
  successful_transformations : Nat
  failed_transformations : Nat
  success_rate : ℚ
  total_size : Nat
  project_mappings : List (String × Mapping)
  detailed_log : List LogEntry
deriving DecidableEq

/-- Embedding of ArchiveTransformer._generate_transformation_report
(modernize_archive.py lines 376-437): counts over the log, the failure count
as total minus successes, the guarded rounded percentage, and the byte total
over success entries. Serialization to disk is a filesystem effect and is not
modelled. -/
def generate_transformation_report (log : List LogEntry)
    (mappings : List (String × Mapping)) : TReport :=
  let total_files := log.length
  let successful_files := (log.filter (fun e => e.status)).length
  let failed_files := total_files - successful_files
  let total_size := ((log.filter (fun e => e.status)).map (fun e => e.file_size)).sum
  { total_files_processed := total_files,
    successful_transformations := successful_files,
    failed_transformations := failed_files,
    success_rate := if 0 < total_files then rate2dp successful_files total_files else 0,
    total_size := total_size,
    project_mappings := mappings,
    detailed_log := log }

/-- Sequential processing of the discovered projects. -/
def foldProjects : List Project → TState → Except String TState
  | [], st => .ok st
  | p :: ps, st =>
    match transform_project p st with
    | .error e => .error e
    | .ok st2 => foldProjects ps st2

/-- Embedding of ArchiveTransformer.transform_archive as written
(modernize_archive.py lines 61-78). The loop on line 74 iterates the
discovered dict directly, so each iteration passes the project KEY, a plain
string, into _transform_project, whose first subscript of project_data with a
string key raises TypeError. The run therefore returns the empty report when
no project was discovered and raises on the first project otherwise. -/
def transform_archive (tree : List WalkEntry) : Except String TReport :=
  match discover_projects tree with
  | [] => .ok (generate_transformation_report [] [])
  | _ :: _ => .error "TypeError: string indices must be integers"

/-- Modelled from the spec: transform_archive with the loop of line 74
iterating the project VALUES, the composition that sections 2 and 4.8 of the
spec describe and the call convention debug_test.py uses when it invokes
_transform_project directly on a discovered value. -/
def transform_archive_values (tree : List WalkEntry) : Except String TReport :=
  match foldProjects ((discover_projects tree).map (fun kp => kp.2)) init_tstate with
  | .error e => .error e
  | .ok st => .ok (generate_transformation_report st.log st.project_mappings)

/-- Canonical project ids assigned by a completed run, in mapping order;
empty when the run raises. -/
def assignedIds (tree : List WalkEntry) : List String :=
  match transform_archive_values tree with
  | .ok r => r.project_mappings.map (fun kp => kp.2.new_id)
  | .error _ => []

/-- Generated filenames of a completed run, in log order. -/
def generatedNames (tree : List WalkEntry) : List (Option String) :=
  match transform_archive_values tree with
  | .ok r => r.detailed_log.map (fun e => e.new_filename)
  | .error _ => []

/-- File record of the analyzer catalog (scan_archive.py lines 71-81)
restricted to the fields the verified components read: name, size and
modification time. Path echoes, depth and parent folder feed only phases no
claim references. -/
structure ARec where
  filename : String
  size_bytes : Nat
  mtime : Nat
deriving DecidableEq

/-- Base identity of a filename in _detect_version_conflicts (scan_archive.py
lines 170-176): strip version and final tokens case-insensitively, collapse
separator runs into underscores, strip leading and trailing underscores. -/
def baseName (filename : String) : String :=
  String.mk (stripUnders (collapseSeps (subAll confTokAt filename.toList)))

/-- Members of the catalog sharing a base identity, in catalog order. The
defaultdict of the source appends each file to the bucket of its own base
name while walking the catalog once, so bucket b holds exactly the catalog
files whose names normalize to b, in encounter order. -/
def groupOf (files : List ARec) (b : String) : List ARec :=
  files.filter (fun f => baseName f.filename = b)

/-- First-encounter deduplication: dict keys iterate in insertion order. -/
def firstEncAux : List String → List String → List String
  | _, [] => []
  | seen, b :: rest =>
    if b ∈ seen then firstEncAux seen rest
    else b :: firstEncAux (b :: seen) rest

/-- Bucket keys of _detect_version_conflicts in insertion order. -/
def conflictKeys (files : List ARec) : List String :=
  firstEncAux [] (files.map (fun f => baseName f.filename))

/-- Descending order on modification time, the key of the reverse sort on
line 182 of scan_archive.py. -/
def mtGE (a b : ARec) : Prop := b.mtime ≤ a.mtime

instance : DecidableRel mtGE := fun a b => Nat.decLe b.mtime a.mtime

instance : IsTotal ARec mtGE :=
  ⟨fun a b => (le_total b.mtime a.mtime).elim Or.inl Or.inr⟩

instance : IsTrans ARec mtGE :=
  ⟨fun _ _ _ h1 h2 => le_trans h2 h1⟩

/-- Version conflict record appended on lines 183-189 of scan_archive.py. -/
structure ConflictSet where
  base_name : String
  files : List ARec
  conflict_count : Nat
  latest_file : String
  oldest_file : String
deriving DecidableEq

/-- Conflict set built on lines 182-189: members sorted by modification time
descending (the Python reverse sort is stable, as is insertion sort under the
reflexive descending order), the head member names the latest file and the
last member the oldest. -/
def mkConflictSet (b : String) (g : List ARec) : ConflictSet :=
  let sorted := List.insertionSort mtGE g
  { base_name := b, files := sorted, conflict_count := g.length,
    latest_file :=
      match sorted with
      | f :: _ => f.filename
      | [] => "",
    oldest_file :=
      match sorted.getLast? with
      | some f => f.filename
      | none => "" }

/-- Embedding of ArchiveAnalyzer._detect_version_conflicts (scan_archive.py
lines 161-189): group the catalog by base identity in key insertion order and
turn every bucket of size above one into a conflict set. -/
def detect_version_conflicts (files : List ARec) : List ConflictSet :=
  (conflictKeys files).filterMap (fun b =>
    let g := groupOf files b
    if 1 < g.length then some (mkConflictSet b g) else none)

/-- Analysis report summary restricted to the fields the claims reference:
the file count, the conflict count and the modification-time range whose
computation is the one that raises on an empty catalog. Size and extension
histograms, orphan and pattern counts and the recommendation list aggregate
phases no claim references and are not modelled. -/
structure AReport where
  total_files : Nat
  version_conflicts : Nat
  earliest : Nat
  latest : Nat
deriving DecidableEq

/-- Embedding of ArchiveAnalyzer._generate_analysis_report (scan_archive.py
lines 213-265): on an empty catalog the date-range computation min(dates) on
line 229 raises ValueError, so no report is produced; otherwise the summary
is returned. -/
def generate_analysis_report (files : List ARec) : Except String AReport :=
  match files.map (fun f => f.mtime) with
  | [] => .error "ValueError: min() arg is an empty sequence"
  | d :: ds =>
    .ok { total_files := files.length,
          version_conflicts := (detect_version_conflicts files).length,
          earliest := ds.foldl Nat.min d,
          latest := ds.foldl Nat.max d }

/-- Embedding of ArchiveAnalyzer.analyze_archive (scan_archive.py lines
36-58) over a discovered catalog: the discovery and analysis phases populate
object state that only the report reads, and the phases the claims reference
are applied inside the report embedding. An empty source directory yields an
empty catalog. -/
def analyze_archive (files : List ARec) : Except String AReport :=
  generate_analysis_report files

/-- Guard of pattern 1 of the path heuristic: the lowercased path contains
the word project. -/
def hasProjectWord (parts : List String) : Bool :=
  strHasSub (lowerStr (pathStr parts)) "project"

/-- Guard of pattern 2 of the path heuristic: the path contains a year
token. -/
def hasYearToken (parts : List String) : Bool :=
  (searchScan yearAt (pathStr parts).toList).isSome

/-- Written from the amended year rule of the claim: take the first year
token, delete every year occurrence together with the separators directly
following it, and combine the year with the first separator-delimited token
of the remainder; when the deletion leaves nothing the key is the bare
Project key. The sentinel empty string covers the unreachable case of a
missing year. -/
def yearRuleSpec (parts : List String) : String :=
  match searchScan yearAt (pathStr parts).toList with
  | none => ""
  | some yc =>
    let remaining := subAll yearSubAt (pathStr parts).toList
    if remaining.isEmpty then "Project_" ++ String.mk yc
    else String.mk (remaining.takeWhile (fun c => !(isSplitSep c))) ++ "_" ++ String.mk yc

/-- Decimal value of a digit string. -/
def digitsVal (l : List Char) : Nat := l.foldl (fun a c => 10 * a + (c.toNat - 48)) 0

/-- Written from the claimed invariant on revision strings: the letter R
followed by the digits of a positive integer. -/
def revClaimForm (s : String) : Bool :=
  match s.toList with
  | 'R' :: rest => !rest.isEmpty && rest.all Char.isDigit && decide (0 < digitsVal rest)
  | _ => false

/-- Type code of a file, the local variable type_code of _transform_file. -/
def typeCodeOf (f : FInfo) : String := determine_type_code f.filename f.extension

/-! Concrete fixtures used by the claim theorems. Each claim keeps its own
fixtures. -/

/-- Fixture for claim C2: a PDF without specification keywords, whose type
code is DOC; the repository sample archive contains this very file. -/
def c2doc : FInfo :=
  { filename := "old_version_something.pdf", extension := ".pdf", size := 10, mtime := 0,
    folder := "TempFolder", ok := true, err := "" }

/-- Fixture for claim C2: a drawing whose copy fails. -/
def c2fail : FInfo :=
  { filename := "bracket.dwg", extension := ".dwg", size := 7, mtime := 0,
    folder := "GAM-x", ok := false,
    err := "PermissionError: [Errno 13] Permission denied" }

/-- Fixture for claim C2: a drawing whose copy succeeds. -/
def c2ok : FInfo :=
  { filename := "housing.dwg", extension := ".dwg", size := 8, mtime := 0,
    folder := "GAM-x", ok := true, err := "" }

/-- Fixture for claim C3: a DOC file, first of its pair in the project. -/
def c3doc : FInfo :=
  { filename := "notes.pdf", extension := ".pdf", size := 5, mtime := 0,
    folder := "Alpha", ok := true, err := "" }

/-- Fixture for claim C3: a DATA file, first of its pair in the project. -/
def c3data : FInfo :=
  { filename := "random_calc.xlsx", extension := ".xlsx", size := 5, mtime := 0,
    folder := "Alpha", ok := true, err := "" }

/-- Fixture for claim C3: an assembly drawing. -/
def c3asm1 : FInfo :=
  { filename := "main_frame.dwg", extension := ".dwg", size := 5, mtime := 0,
    folder := "Alpha", ok := true, err := "" }

/-- Fixture for claim C3: a part drawing. -/
def c3prt : FInfo :=
  { filename := "bracket.dwg", extension := ".dwg", size := 5, mtime := 0,
    folder := "Alpha", ok := true, err := "" }

/-- Fixture for claim C3: a second assembly drawing. -/
def c3asm2 : FInfo :=
  { filename := "main_housing.dwg", extension := ".dwg", size := 5, mtime := 0,
    folder := "Alpha", ok := true, err := "" }

/-- Fixture for claim C1: a source tree with one project and one file, enough
to make the run reach the project loop. -/
def c1tree : List WalkEntry :=
  [ { parts := ["ProjectAlpha"],
      files := [{ name := "main_assembly.dwg", size := 100, mtime := 10, ok := true, err := "" }] } ]

/-- Fixture for claim C8: a successful log entry. -/
def c8succ : LogEntry :=
  { original_filename := "a.dwg", new_filename := some "P001-PRT-001_Component_R1.dwg",
    target_dir := "Drawings", project_id := "P001", file_size := 10, seq := 1,
    status := true, error := none }

/-- Fixture for claim C8: a failed log entry. -/
def c8fail1 : LogEntry :=
  { original_filename := "b.dwg", new_filename := none, target_dir := "Drawings",
    project_id := "P001", file_size := 11, seq := 1, status := false,
    error := some "OSError: disk full" }

/-- Fixture for claim C8: a second failed log entry. -/
def c8fail2 : LogEntry :=
  { original_filename := "c.dwg", new_filename := none, target_dir := "Drawings",
    project_id := "P001", file_size := 12, seq := 1, status := false,
    error := some "OSError: disk full" }

/-- Fixture for claim C8: a log with one success among three attempts. -/
def c8log : List LogEntry := [c8succ, c8fail1, c8fail2]

/-- Fixture for claim C10: a part drawing whose copy fails. -/
def c10f : FInfo :=
  { filename := "shaft.dwg", extension := ".dwg", size := 4, mtime := 0,
    folder := "Delta", ok := false, err := "OSError: disk full" }

/-- Fixture for claim C10: an intervening specification of a different type
code whose copy succeeds. -/
def c10mid : List FInfo :=
  [{ filename := "delta_specification.pdf", extension := ".pdf", size := 6, mtime := 0,
     folder := "Delta", ok := true, err := "" }]

/-- Fixture for claim C10: the next part drawing, same type code as the
failed file, whose copy succeeds. -/
def c10g : FInfo :=
  { filename := "housing.dwg", extension := ".dwg", size := 5, mtime := 0,
    folder := "Delta", ok := true, err := "" }

/-- Fixture for claim C10: the computed outcome of the three-file batch. -/
def c10res : List (String × Nat) × List LogEntry :=
  (transform_files (c10f :: (c10mid ++ [c10g])) "P001" init_file_counters).toOption.getD
    (init_file_counters, [])

/-- Fixture for claim C4: the older version of a document. -/
def c4a : ARec := { filename := "Proj_v1_final.dwg", size_bytes := 1, mtime := 5 }

/-- Fixture for claim C4: the newer version of the same document. -/
def c4b : ARec := { filename := "Proj_v2_final.dwg", size_bytes := 1, mtime := 9 }

/-- Fixture for claim C4: an unrelated file. -/
def c4c : ARec := { filename := "other_notes.txt", size_bytes := 1, mtime := 3 }

/-- Fixture for claim C4: a catalog with one conflicting pair. -/
def c4files : List ARec := [c4a, c4b, c4c]

/-- Shape of groups produced by the revision matchers: a nonempty digit run
or a single uppercase letter. -/
def GoodGroup (g : List Char) : Prop :=
  (g.isEmpty = false ∧ g.all Char.isDigit = true) ∨ ∃ c, g = [c] ∧ isUpperAZ c = true

/-! Claim theorems. -/

/-- Claim C6: the spec scenario expects an empty source directory to produce
an AnalysisReport whose summary counts zero files with no fatal error raised.
The code instead raises ValueError when it takes the minimum of the empty
modification-date list on line 229 of scan_archive.py, aborting the analyzer
before any report exists, so the code contradicts the scenario of the spec.
This theorem evaluates the analyzer at the failing input, the empty catalog
of an empty source directory. -/
theorem claim6_empty_archive_raises :
    analyze_archive [] = Except.error "ValueError: min() arg is an empty sequence" := by
  decide

/-- Claim C2: the spec states that a failure while processing a file yields
exactly one FAILED entry with the error detail and that processing continues,
with no per-file failure ever aborting the batch or escaping to the caller.
The first conjunct shows the code violating this: processing a DOC file (a
PDF without specification keywords) raises KeyError out of _transform_file,
because the counter subscript on line 242 sits outside the try block and the
counter table of line 213 has no DOC key, so the batch aborts with no FAILED
entry. The remaining conjuncts show the isolation working as claimed for copy
failures proper: a failing copy yields exactly one FAILED entry carrying the
error detail and the next file is still processed. -/
theorem claim2_per_file_failure_isolation :
    transform_files [c2doc] "P001" init_file_counters = Except.error "KeyError: DOC" ∧
    (transform_files [c2fail, c2ok] "P001" init_file_counters).map
        (fun p => p.2.map (fun e => (e.status, e.error))) =
      Except.ok [(false, some "PermissionError: [Errno 13] Permission denied"), (true, none)] ∧
    (transform_files [c2fail, c2ok] "P001" init_file_counters).map
        (fun p => p.2.length) = Except.ok 2 := by
  refine ⟨by decide, by decide, by decide⟩

/-- Claim C3: the claim asserts that for every type code among ASM, PRT,
SPEC, BOM, DOC, DATA and MISC the per-project sequence starts at one and is
scoped per pair of project and type code. The counter table created per
project initializes only ASM, PRT, SPEC, BOM and MISC to one: the first DOC
or DATA file of a project raises KeyError instead of receiving sequence one,
so the code contradicts the claim and the invariant of the spec for those two
codes. The last conjunct shows the per-pair scoping working for the codes
that are present: sequences of an ASM, a PRT and a second ASM file of one
project run one, one, two. -/
theorem claim3_sequence_scoping :
    ctrGet "ASM" init_file_counters = some 1 ∧
    ctrGet "PRT" init_file_counters = some 1 ∧
    ctrGet "SPEC" init_file_counters = some 1 ∧
    ctrGet "BOM" init_file_counters = some 1 ∧
    ctrGet "MISC" init_file_counters = some 1 ∧
    ctrGet "DOC" init_file_counters = none ∧
    ctrGet "DATA" init_file_counters = none ∧
    determine_type_code c3doc.filename c3doc.extension = "DOC" ∧
    determine_type_code c3data.filename c3data.extension = "DATA" ∧
    transform_file c3doc "P001" init_file_counters = Except.error "KeyError: DOC" ∧
    transform_file c3data "P001" init_file_counters = Except.error "KeyError: DATA" ∧
    (transform_files [c3asm1, c3prt, c3asm2] "P001" init_file_counters).map
        (fun p => p.2.map (fun e => e.seq)) = Except.ok [1, 1, 2] := by
  refine ⟨by decide, by decide, by decide, by decide, by decide, by decide, by decide,
    by decide, by decide, by decide, by decide, by decide⟩

/-- Claim C9: for every composed filename, under every configuration, the
sanitization of line 253 is the final step of name generation, and its output
never contains a filesystem-reserved character: each reserved character is
replaced by an underscore, which is not reserved, and every other character
is kept unchanged. -/
theorem claim9_sanitized_names (s : String) :
    (sanitize_name s).toList.all (fun c => !(isReservedChar c)) = true := by
  show (s.toList.map fun c => if isReservedChar c then '_' else c).all
      (fun c => !(isReservedChar c)) = true
  refine List.all_eq_true.mpr ?_
  intro c hc
  obtain ⟨d, _, rfl⟩ := List.mem_map.mp hc
  by_cases h : isReservedChar d
  · simp [h]
    decide
  · simp [h]

/-- Helper for claim C5: a captured digit group is nonempty and consists of
digits. -/
theorem digitGroup_digits {l g : List Char} (h : digitGroup l = some g) :
    g.isEmpty = false ∧ g.all Char.isDigit = true := by
  simp only [digitGroup] at h
  split at h
  · exact absurd h (by simp)
  · next hne =>
    cases h
    refine ⟨by simpa using hne, ?_⟩
    exact List.all_eq_true.mpr fun x hx => List.mem_takeWhile_imp hx

/-- Helper for claim C5: a leftmost search only returns groups its position
matcher can return. -/
theorem searchScan_shape {P : List Char → Prop} {f : List Char → Option (List Char)}
    (hf : ∀ l g, f l = some g → P g) :
    ∀ l g, searchScan f l = some g → P g := by
  intro l
  induction l with
  | nil => intro g h; simp [searchScan] at h
  | cons c rest ih =>
    intro g h
    rw [searchScan] at h
    cases hfc : f (c :: rest) with
    | some g2 => rw [hfc] at h; cases h; exact hf _ _ hfc
    | none => rw [hfc] at h; exact ih g h

theorem matchRevNumAt_shape : ∀ l g, matchRevNumAt l = some g → GoodGroup g := by
  intro l g h
  unfold matchRevNumAt at h
  split at h
  · split at h
    · exact Or.inl (digitGroup_digits h)
    · exact absurd h (by simp)
  · exact absurd h (by simp)

theorem matchRNumAt_shape : ∀ l g, matchRNumAt l = some g → GoodGroup g := by
  intro l g h
  unfold matchRNumAt at h
  split at h
  · split at h
    · exact Or.inl (digitGroup_digits h)
    · exact absurd h (by simp)
  · exact absurd h (by simp)

theorem matchVNumAt_shape : ∀ l g, matchVNumAt l = some g → GoodGroup g := by
  intro l g h
  unfold matchVNumAt at h
  split at h
  · split at h
    · exact Or.inl (digitGroup_digits h)
    · exact absurd h (by simp)
  · exact absurd h (by simp)

theorem matchRevLetterAt_shape : ∀ l g, matchRevLetterAt l = some g → GoodGroup g := by
  intro l g h
  unfold matchRevLetterAt at h
  split at h
  · split at h
    · next c _ _ =>
      split at h
      · next hc => cases h; exact Or.inr ⟨c, rfl, hc⟩
      · exact absurd h (by simp)
    · exact absurd h (by simp)
  · exact absurd h (by simp)

theorem matchTrailNumAt_shape : ∀ l g, matchTrailNumAt l = some g → GoodGroup g := by
  intro l g h
  unfold matchTrailNumAt at h
  split at h
  · split at h
    · exact absurd h (by simp)
    · next ds hds =>
      split at h
      · split at h
        · cases h; exact Or.inl (digitGroup_digits hds)
        · exact absurd h (by simp)
      · exact absurd h (by simp)
  · exact absurd h (by simp)

/-- Helper for claim C5: every group the ordered pattern list can produce is
a nonempty digit run or a single uppercase letter. -/
theorem revGroup_shape : ∀ l g, revGroup l = some g → GoodGroup g := by
  intro l g h
  unfold revGroup at h
  cases h1 : searchScan matchRevNumAt l with
  | some g1 =>
    rw [h1] at h; cases h
    exact searchScan_shape matchRevNumAt_shape _ _ h1
  | none =>
    rw [h1] at h
    cases h2 : searchScan matchRNumAt l with
    | some g2 =>
      rw [h2] at h; cases h
      exact searchScan_shape matchRNumAt_shape _ _ h2
    | none =>
      rw [h2] at h
      cases h3 : searchScan matchVNumAt l with
      | some g3 =>
        rw [h3] at h; cases h
        exact searchScan_shape matchVNumAt_shape _ _ h3
      | none =>
        rw [h3] at h
        cases h4 : searchScan matchRevLetterAt l with
        | some g4 =>
          rw [h4] at h; cases h
          exact searchScan_shape matchRevLetterAt_shape _ _ h4
        | none =>
          rw [h4] at h
          exact searchScan_shape matchTrailNumAt_shape _ _ h

/-- Helper for claim C5: decimal digit characters are digits. -/
theorem charOfDigit_isDigit : ∀ d, d < 10 → Char.isDigit (Char.ofNat (48 + d)) = true := by
  decide

/-- Helper for claim C5: the decimal printer emits only digits. -/
theorem natDigitsAux_digits : ∀ fuel n, (natDigitsAux fuel n).all Char.isDigit = true := by
  intro fuel
  induction fuel with
  | zero => intro n; rfl
  | succ fuel ih =>
    intro n
    unfold natDigitsAux
    split
    · next h => simp [charOfDigit_isDigit n h]
    · next h =>
      rw [List.all_append]
      simp [ih (n / 10), charOfDigit_isDigit (n % 10) (Nat.mod_lt _ (by decide))]

/-- Helper for claim C5: the decimal printer emits at least one digit. -/
theorem natDecimal_ne (n : Nat) : (natDecimal n).isEmpty = false := by
  unfold natDecimal natDigitsAux
  split
  · rfl
  · next h =>
    simp [List.isEmpty_iff]

/-- Claim C5 counterexample: the claim states every extracted revision has
the form R followed by a positive integer; the filename part_rev0.dwg matches
the first pattern with the digit group 0 and the function returns R0, which
is not of that form. -/
theorem claim5_counterexample :
    extract_revision "part_rev0.dwg" = "R0" ∧
    revClaimForm (extract_revision "part_rev0.dwg") = false := by
  refine ⟨by decide, by decide⟩

/-- Helper for claim C5: characters at or above the letter A are not
digits. -/
theorem upperAZ_not_digit {c : Char} (hc : isUpperAZ c = true) :
    Char.isDigit c = false := by
  simp only [isUpperAZ, Bool.and_eq_true, decide_eq_true_eq] at hc
  have h65 : (65 : UInt32) ≤ c.val := hc.1
  have h65n : (65 : Nat) ≤ c.val.toNat := h65
  simp only [Char.isDigit, Bool.and_eq_false_iff]
  right
  simp only [decide_eq_false_iff_not]
  intro hle
  have hn : c.val.toNat ≤ 57 := hle
  omega

/-- Helper for claim C5: evaluation of the extractor on a matched group. -/
theorem extract_revision_of_group {s : String} {g : List Char}
    (h : revGroup s.toList = some g) :
    extract_revision s =
      if g.all Char.isDigit then "R" ++ String.mk g
      else "R" ++ String.mk (natDecimal ((g.headD 'A').toUpper.toNat - 'A'.toNat + 1)) := by
  unfold extract_revision
  rw [h]

/-- Helper for claim C5: evaluation of the extractor with no match. -/
theorem extract_revision_of_none {s : String} (h : revGroup s.toList = none) :
    extract_revision s = "R1" := by
  unfold extract_revision
  rw [h]

/-- Claim C5 as amended: the ordered pattern list is tried first-match-wins,
numeric matches keep the matched digit run verbatim after the R prefix (the
run can denote zero or carry leading zeros), lettered matches map A to R1, B
to R2 and so on, and the default is R1; hence every extracted revision is the
letter R followed by a nonempty digit run. -/
theorem claim5_revision_form_amended (s : String) :
    ∃ t : List Char,
      extract_revision s = "R" ++ String.mk t ∧
      t.isEmpty = false ∧ t.all Char.isDigit = true := by
  cases h : revGroup s.toList with
  | none => exact ⟨['1'], extract_revision_of_none h, rfl, rfl⟩
  | some g =>
    rcases revGroup_shape _ _ h with ⟨hne, hdig⟩ | ⟨c, rfl, hc⟩
    · refine ⟨g, ?_, hne, hdig⟩
      rw [extract_revision_of_group h, if_pos hdig]
    · have hnd : ¬ (([c].all Char.isDigit) = true) := by
        simp [upperAZ_not_digit hc]
      refine ⟨natDecimal ((([c].headD 'A').toUpper.toNat - 'A'.toNat + 1)), ?_,
        natDecimal_ne _, natDigitsAux_digits _ _⟩
      rw [extract_revision_of_group h, if_neg hnd]

/-- Claim C7 counterexample: for the relative path Old/2019_Gamma the year
rule decides the key (no project word, the year 2019 present) and the path
segment following the year is Gamma, so the claim predicts Gamma_2019. The
code instead deletes the year from the whole path string and takes the FIRST
separator-delimited token of the remainder, which here is the segment Old
standing before the year, yielding Old_2019. -/
theorem claim7_counterexample :
    hasProjectWord ["Old", "2019_Gamma"] = false ∧
    hasYearToken ["Old", "2019_Gamma"] = true ∧
    identify_project_from_path ["Old", "2019_Gamma"] = "Old_2019" ∧
    identify_project_from_path ["Old", "2019_Gamma"] ≠ "Gamma_2019" := by
  refine ⟨by decide, by decide, by decide, by decide⟩

/-- Claim C7 as amended: whenever the year rule decides the key (no project
word in the path, a year token present), the key combines the year with the
first separator-delimited token of the path string from which every year
occurrence and its directly following underscore and whitespace characters
were deleted, or is the bare Project key when the deletion leaves nothing;
that token equals the segment following the year exactly when the year
starts the path. -/
theorem claim7_year_rule_amended (parts : List String)
    (h1 : hasProjectWord parts = false) (h2 : hasYearToken parts = true) :
    identify_project_from_path parts = yearRuleSpec parts := by
  unfold hasProjectWord at h1
  unfold hasYearToken at h2
  obtain ⟨yc, hyc⟩ := Option.isSome_iff_exists.mp h2
  simp only [identify_project_from_path, identifyP2, yearRuleSpec, h1, Bool.false_eq_true,
    if_false, hyc]

/-- Witness for claim C7: the amended year rule applied to the path
2019_Gamma, where the year starts the path and the key is Gamma_2019. -/
theorem claim7_year_rule_amended_witness :
    hasProjectWord ["2019_Gamma"] = false ∧ hasYearToken ["2019_Gamma"] = true ∧
    identify_project_from_path ["2019_Gamma"] = yearRuleSpec ["2019_Gamma"] ∧
    yearRuleSpec ["2019_Gamma"] = "Gamma_2019" :=
  ⟨by decide, by decide, claim7_year_rule_amended _ (by decide) (by decide), by decide⟩

/-- Claim C8 counterexample: the claim states the success rate always equals
100 times the success count over the total count; for a log of three
attempts with one success the code stores the two-decimal rounding 33.33,
which differs from 100/3. -/
theorem claim8_counterexample :
    (generate_transformation_report c8log []).successful_transformations = 1 ∧
    (generate_transformation_report c8log []).total_files_processed = 3 ∧
    (generate_transformation_report c8log []).success_rate = (3333 : ℚ) / 100 ∧
    (generate_transformation_report c8log []).success_rate ≠ 100 * 1 / 3 := by
  have h : (generate_transformation_report c8log []).success_rate = ((3333 : ℕ) : ℚ) / 100 := rfl
  refine ⟨by decide, by decide, ?_, ?_⟩
  · rw [h]; norm_num
  · rw [h]; norm_num

/-- Helper for claim C8: the stored two-decimal rounding differs from the
exact percentage by at most half of the last kept digit. -/
theorem rate2dp_close (s t : Nat) (ht : t ≠ 0) :
    |rate2dp s t - 100 * (s : ℚ) / (t : ℚ)| ≤ 1 / 200 := by
  have htq : (0 : ℚ) < (t : ℚ) := by exact_mod_cast Nat.pos_of_ne_zero ht
  have hdm : (t * (10000 * s / t) + 10000 * s % t : ℕ) = 10000 * s := Nat.div_add_mod _ t
  have hdmq : ((t : ℚ)) * ((10000 * s / t : ℕ) : ℚ) + ((10000 * s % t : ℕ) : ℚ)
      = 10000 * (s : ℚ) := by exact_mod_cast hdm
  have hrt : ((10000 * s % t : ℕ) : ℚ) < (t : ℚ) := by
    exact_mod_cast Nat.mod_lt _ (Nat.pos_of_ne_zero ht)
  have key : ∀ x : ℚ, (x / 100 - 100 * (s : ℚ) / (t : ℚ)) = (x * t - 10000 * s) / (100 * t) := by
    intro x
    field_simp
    ring
  have habs : ∀ x : ℚ, |x * (t : ℚ) - 10000 * s| ≤ (t : ℚ) / 2 →
      |x / 100 - 100 * (s : ℚ) / (t : ℚ)| ≤ 1 / 200 := by
    intro x hx
    rw [key x, abs_div, abs_of_pos (by positivity : (0 : ℚ) < 100 * t), div_le_iff₀ (by positivity)]
    calc |x * (t : ℚ) - 10000 * s| ≤ (t : ℚ) / 2 := hx
    _ = 1 / 200 * (100 * t) := by ring
  unfold rate2dp halfEvenDiv
  split_ifs with hlt hgt heven
  · refine habs _ ?_
    have hq : (((10000 * s / t : ℕ) : ℚ)) * t - 10000 * s = -((10000 * s % t : ℕ) : ℚ) := by
      linear_combination hdmq
    rw [hq, abs_neg, abs_of_nonneg (by positivity)]
    have h2 : ((2 * (10000 * s % t) : ℕ) : ℚ) ≤ ((t : ℕ) : ℚ) := by
      exact_mod_cast le_of_lt hlt
    push_cast at h2
    linarith
  · refine habs _ ?_
    push_cast
    have hq : (((10000 * s / t : ℕ) : ℚ) + 1) * t - 10000 * s
        = (t : ℚ) - ((10000 * s % t : ℕ) : ℚ) := by
      linear_combination hdmq
    rw [hq, abs_of_nonneg (by linarith)]
    have h2 : ((t : ℕ) : ℚ) ≤ ((2 * (10000 * s % t) : ℕ) : ℚ) := by
      exact_mod_cast le_of_lt hgt
    push_cast at h2
    linarith
  · refine habs _ ?_
    have hq : (((10000 * s / t : ℕ) : ℚ)) * t - 10000 * s = -((10000 * s % t : ℕ) : ℚ) := by
      linear_combination hdmq
    rw [hq, abs_neg, abs_of_nonneg (by positivity)]
    have h2 : ((2 * (10000 * s % t) : ℕ) : ℚ) = ((t : ℕ) : ℚ) := by
      exact_mod_cast le_antisymm (le_of_not_lt hgt) (le_of_not_lt hlt)
    push_cast at h2
    linarith
  · refine habs _ ?_
    push_cast
    have hq : (((10000 * s / t : ℕ) : ℚ) + 1) * t - 10000 * s
        = (t : ℚ) - ((10000 * s % t : ℕ) : ℚ) := by
      linear_combination hdmq
    rw [hq, abs_of_nonneg (by linarith)]
    have h2 : ((2 * (10000 * s % t) : ℕ) : ℚ) = ((t : ℕ) : ℚ) := by
      exact_mod_cast le_antisymm (le_of_not_lt hgt) (le_of_not_lt hlt)
    push_cast at h2
    linarith

/-- Claim C8 as amended: the failure count is the total count minus the
success count; with no attempts the success rate is zero with no division
fault; and with attempts present the stored rate is the exact percentage
100 times success over total rounded to two decimal places, hence within
1/200 of it. -/
theorem claim8_report_amended (log : List LogEntry) (mappings : List (String × Mapping)) :
    (generate_transformation_report log mappings).failed_transformations =
      (generate_transformation_report log mappings).total_files_processed -
        (generate_transformation_report log mappings).successful_transformations ∧
    ((generate_transformation_report log mappings).total_files_processed = 0 →
      (generate_transformation_report log mappings).success_rate = 0) ∧
    ((generate_transformation_report log mappings).total_files_processed ≠ 0 →
      (generate_transformation_report log mappings).success_rate =
        rate2dp (generate_transformation_report log mappings).successful_transformations
          (generate_transformation_report log mappings).total_files_processed ∧
      |(generate_transformation_report log mappings).success_rate -
          100 * ((generate_transformation_report log mappings).successful_transformations : ℚ) /
            ((generate_transformation_report log mappings).total_files_processed : ℚ)| ≤
        1 / 200) := by
  simp only [generate_transformation_report]
  refine ⟨by trivial, ?_, ?_⟩
  · intro h0
    rw [if_neg (by omega)]
  · intro hne
    have hpos : 0 < log.length := Nat.pos_of_ne_zero hne
    rw [if_pos hpos]
    exact ⟨rfl, rate2dp_close _ _ hne⟩

/-- Witness for claim C8: the amended report properties at a concrete log of
three attempts with one success. -/
theorem claim8_report_amended_witness :
    (generate_transformation_report c8log []).failed_transformations =
      (generate_transformation_report c8log []).total_files_processed -
        (generate_transformation_report c8log []).successful_transformations ∧
    (generate_transformation_report c8log []).total_files_processed ≠ 0 ∧
    (generate_transformation_report c8log []).success_rate =
      rate2dp (generate_transformation_report c8log []).successful_transformations
        (generate_transformation_report c8log []).total_files_processed ∧
    |(generate_transformation_report c8log []).success_rate -
        100 * ((generate_transformation_report c8log []).successful_transformations : ℚ) /
          ((generate_transformation_report c8log []).total_files_processed : ℚ)| ≤ 1 / 200 :=
  ⟨(claim8_report_amended c8log []).1, by decide,
    ((claim8_report_amended c8log []).2.2 (by decide)).1,
    ((claim8_report_amended c8log []).2.2 (by decide)).2⟩

/-- Helper for claim C10: incrementing one key leaves the lookup of a
different key unchanged. -/
theorem ctrGet_bump_ne {k k2 : String} (h : k2 ≠ k) :
    ∀ cs : List (String × Nat), ctrGet k (ctrBump k2 cs) = ctrGet k cs
  | [] => rfl
  | (k3, v) :: rest => by
    unfold ctrBump
    by_cases h3 : k3 = k2
    · rw [if_pos h3]
      unfold ctrGet
      rw [if_neg (by rw [h3]; exact h), if_neg (by rw [h3]; exact h)]
    · rw [if_neg h3]
      unfold ctrGet
      by_cases h4 : k3 = k
      · rw [if_pos h4, if_pos h4]
      · rw [if_neg h4, if_neg h4]
        exact ctrGet_bump_ne h rest

/-- Helper for claim C10: the outcome of one file under a successful lookup,
by the copy outcome. -/
theorem transform_file_cases {f : FInfo} {pid : String} {cs cs2 : List (String × Nat)}
    {e : LogEntry} {n : Nat} (hg : ctrGet (typeCodeOf f) cs = some n)
    (h : transform_file f pid cs = .ok (cs2, e)) :
    e.seq = n ∧ ((f.ok = false ∧ cs2 = cs) ∨ (f.ok = true ∧ cs2 = ctrBump (typeCodeOf f) cs)) := by
  simp only [typeCodeOf] at hg
  simp only [transform_file, hg] at h
  cases hok : f.ok with
  | true =>
    simp only [hok, if_true] at h
    injection h with hpair
    injection hpair with h1 h2
    refine ⟨by rw [← h2], Or.inr ⟨rfl, ?_⟩⟩
    simp only [typeCodeOf, ← h1]
  | false =>
    simp only [hok, Bool.false_eq_true, if_false] at h
    injection h with hpair
    injection hpair with h1 h2
    exact ⟨by rw [← h2], Or.inl ⟨rfl, h1.symm⟩⟩

/-- Helper for claim C10: the lookup of a processed file never fails. -/
theorem transform_file_lookup {f : FInfo} {pid : String} {cs cs2 : List (String × Nat)}
    {e : LogEntry} (h : transform_file f pid cs = .ok (cs2, e)) :
    ∃ n, ctrGet (typeCodeOf f) cs = some n := by
  cases hg : ctrGet (typeCodeOf f) cs with
  | none =>
    simp only [typeCodeOf] at hg
    simp [transform_file, hg] at h
  | some n => exact ⟨n, rfl⟩

/-- Helper for claim C10: a failing copy leaves the counter table unchanged,
and the sequence recorded for the file is the looked-up counter value. -/
theorem transform_file_fail {f : FInfo} {pid : String} {cs cs2 : List (String × Nat)}
    {e : LogEntry} (hok : f.ok = false)
    (h : transform_file f pid cs = .ok (cs2, e)) :
    cs2 = cs ∧ ctrGet (typeCodeOf f) cs = some e.seq := by
  obtain ⟨n, hg⟩ := transform_file_lookup h
  obtain ⟨hseq, hcase⟩ := transform_file_cases hg h
  rcases hcase with ⟨_, hcs⟩ | ⟨hok2, _⟩
  · exact ⟨hcs, by rw [hg, hseq]⟩
  · rw [hok] at hok2
    exact absurd hok2 (by simp)

/-- Helper for claim C10: whatever the copy outcome, the sequence recorded
for a processed file is the counter value of its type code at entry. -/
theorem transform_file_seq {f : FInfo} {pid : String} {cs cs2 : List (String × Nat)}
    {e : LogEntry} (h : transform_file f pid cs = .ok (cs2, e)) :
    ctrGet (typeCodeOf f) cs = some e.seq := by
  obtain ⟨n, hg⟩ := transform_file_lookup h
  obtain ⟨hseq, _⟩ := transform_file_cases hg h
  rw [hg, hseq]

/-- Helper for claim C10: processing one file of a different type code does
not move the counter of the given code. -/
theorem transform_file_ctr_ne {f : FInfo} {pid : String} {cs cs2 : List (String × Nat)}
    {e : LogEntry} {k : String} (h : transform_file f pid cs = .ok (cs2, e))
    (hne : typeCodeOf f ≠ k) : ctrGet k cs2 = ctrGet k cs := by
  obtain ⟨n, hg⟩ := transform_file_lookup h
  obtain ⟨_, hcase⟩ := transform_file_cases hg h
  rcases hcase with ⟨_, hcs⟩ | ⟨_, hcs⟩
  · rw [hcs]
  · rw [hcs]
    exact ctrGet_bump_ne hne cs

/-- Helper for claim C10: a successful batch starting with one file yields a
successful head step and a successful tail batch. -/
theorem transform_files_cons {f : FInfo} {rest : List FInfo} {pid : String}
    {cs cs2 : List (String × Nat)} {es : List LogEntry}
    (h : transform_files (f :: rest) pid cs = .ok (cs2, es)) :
    ∃ cs1 e1 es3, transform_file f pid cs = .ok (cs1, e1) ∧
      transform_files rest pid cs1 = .ok (cs2, es3) ∧ es = e1 :: es3 := by
  cases h1 : transform_file f pid cs with
  | error e => simp [transform_files, h1] at h
  | ok p =>
    obtain ⟨cs1, e1⟩ := p
    cases h2 : transform_files rest pid cs1 with
    | error e => simp [transform_files, h1, h2] at h
    | ok p2 =>
      obtain ⟨cs3, es3⟩ := p2
      simp only [transform_files, h1, h2, Except.ok.injEq, Prod.mk.injEq] at h
      obtain ⟨ha, hb⟩ := h
      exact ⟨cs1, e1, es3, rfl, by rw [← ha]; exact h2, hb.symm⟩

/-- Helper for claim C10: processing files of other type codes leaves the
counter of the given code unchanged. -/
theorem transform_files_ctr_ne {l : List FInfo} {pid : String} {k : String} :
    ∀ {cs cs2 : List (String × Nat)} {es : List LogEntry},
      transform_files l pid cs = .ok (cs2, es) → (∀ m ∈ l, typeCodeOf m ≠ k) →
        ctrGet k cs2 = ctrGet k cs := by
  induction l with
  | nil =>
    intro cs cs2 es h _
    have h' : (Except.ok (cs, ([] : List LogEntry)) :
        Except String (List (String × Nat) × List LogEntry)) = .ok (cs2, es) := h
    injection h' with hpair
    injection hpair with ha _
    rw [← ha]
  | cons f rest ih =>
    intro cs cs2 es h hl
    obtain ⟨cs1, e1, es3, h1, h2, _⟩ := transform_files_cons h
    rw [ih h2 (fun m hm => hl m (List.mem_cons_of_mem f hm)),
      transform_file_ctr_ne h1 (hl f (List.mem_cons_self f rest))]

/-- Helper for claim C10: a successful batch splits at a list append. -/
theorem transform_files_append {l1 l2 : List FInfo} {pid : String} :
    ∀ {cs cs2 : List (String × Nat)} {es : List LogEntry},
      transform_files (l1 ++ l2) pid cs = .ok (cs2, es) →
        ∃ csm es1 es2, transform_files l1 pid cs = .ok (csm, es1) ∧
          transform_files l2 pid csm = .ok (cs2, es2) ∧ es = es1 ++ es2 := by
  induction l1 with
  | nil =>
    intro cs cs2 es h
    exact ⟨cs, [], es, rfl, by simpa using h, rfl⟩
  | cons f rest ih =>
    intro cs cs2 es h
    rw [List.cons_append] at h
    obtain ⟨cs1, e1, es3, h1, h2, hes⟩ := transform_files_cons h
    obtain ⟨csm, es1, es2, ha, hb, hc⟩ := ih h2
    refine ⟨csm, e1 :: es1, es2, ?_, hb, ?_⟩
    · simp only [transform_files, h1, ha]
    · rw [hes, hc, List.cons_append]

/-- Claim C10: the per-type-code sequence counter moves only when a copy
succeeds, so after a failed copy the next file of the same type code in the
same project receives the same sequence number: in a batch beginning with the
failing file and ending with the next file of that type code (every file in
between being of other type codes), the first and last log entries carry
equal sequence numbers. -/
theorem claim10_sequence_reuse (f g : FInfo) (mid : List FInfo) (pid : String)
    (ctrs : List (String × Nat)) (hf : f.ok = false)
    (htc : typeCodeOf g = typeCodeOf f)
    (hmid : ∀ m ∈ mid, typeCodeOf m ≠ typeCodeOf f) :
    (∀ cs1 e1, transform_file f pid ctrs = .ok (cs1, e1) → cs1 = ctrs) ∧
    (∀ ctrs2 log2, transform_files (f :: (mid ++ [g])) pid ctrs = .ok (ctrs2, log2) →
      log2.head?.map LogEntry.seq = log2.getLast?.map LogEntry.seq) := by
  constructor
  · intro cs1 e1 h1
    exact (transform_file_fail hf h1).1
  · intro ctrs2 log2 h
    obtain ⟨cs1, e1, es3, h1, h2, hlog⟩ := transform_files_cons h
    obtain ⟨hcs, hseq⟩ := transform_file_fail hf h1
    rw [hcs] at h2
    obtain ⟨csm, es1, es2, ha, hb, hc⟩ := transform_files_append h2
    have hmidc : ctrGet (typeCodeOf f) csm = ctrGet (typeCodeOf f) ctrs :=
      transform_files_ctr_ne ha hmid
    obtain ⟨csg, eg, esr, hg1, hgr, hes2⟩ := transform_files_cons hb
    have hesr : esr = [] := by
      have h' : (Except.ok (csg, ([] : List LogEntry)) :
          Except String (List (String × Nat) × List LogEntry)) = .ok (ctrs2, esr) := hgr
      injection h' with hpair
      injection hpair with _ hbb
      exact hbb.symm
    have hgseq : ctrGet (typeCodeOf g) csm = some eg.seq := transform_file_seq hg1
    rw [htc, hmidc, hseq] at hgseq
    have heq : eg.seq = e1.seq := by
      injection hgseq with hv
      rw [hv]
    rw [hlog, hc, hes2, hesr]
    simp only [List.head?_cons, Option.map_some]
    rw [show e1 :: (es1 ++ [eg]) = (e1 :: es1) ++ [eg] from by rw [List.cons_append],
      List.getLast?_concat]
    simp [heq]

/-- Witness for claim C10: in a concrete batch the failed part drawing, an
intervening specification and the next part drawing produce first and last
log entries with the same sequence number. -/
theorem claim10_sequence_reuse_witness :
    c10f.ok = false ∧ typeCodeOf c10g = typeCodeOf c10f ∧
    transform_files (c10f :: (c10mid ++ [c10g])) "P001" init_file_counters = .ok c10res ∧
    c10res.2.head?.map LogEntry.seq = c10res.2.getLast?.map LogEntry.seq :=
  ⟨rfl, rfl, by decide,
    (claim10_sequence_reuse c10f c10g c10mid "P001" init_file_counters rfl rfl
      (by decide)).2 c10res.1 c10res.2 (by decide)⟩

/-- Helper for claim C1: a successful project step appends exactly one
mapping, whose canonical id is formatted from the running counter, and
advances the counter by one. -/
theorem transform_project_ok {p : Project} {st st2 : TState}
    (h : transform_project p st = .ok st2) :
    st2.project_counter = st.project_counter + 1 ∧
    st2.project_mappings.map (fun kp => kp.2.new_id) =
      st.project_mappings.map (fun kp => kp.2.new_id) ++
        ["P" ++ zeroPad 3 st.project_counter] := by
  cases hf : transform_files p.files ("P" ++ zeroPad 3 st.project_counter)
      init_file_counters with
  | error e => simp [transform_project, hf] at h
  | ok pr =>
    obtain ⟨cs, es⟩ := pr
    simp only [transform_project, hf, Except.ok.injEq] at h
    rw [← h]
    simp

/-- Helper for claim C1: a successful fold over the project list assigns the
canonical ids by the running counter in list order. -/
theorem foldProjects_ids : ∀ (ps : List Project) (st r : TState),
    foldProjects ps st = .ok r →
    r.project_mappings.map (fun kp => kp.2.new_id) =
      st.project_mappings.map (fun kp => kp.2.new_id) ++
        (List.range ps.length).map (fun i => "P" ++ zeroPad 3 (st.project_counter + i)) := by
  intro ps
  induction ps with
  | nil =>
    intro st r h
    have h' : (Except.ok st : Except String TState) = .ok r := h
    injection h' with h2
    rw [← h2]
    simp
  | cons p ps ih =>
    intro st r h
    cases hp : transform_project p st with
    | error e => simp [foldProjects, hp] at h
    | ok st2 =>
      have h2 : foldProjects ps st2 = .ok r := by
        simpa [foldProjects, hp] using h
      obtain ⟨hc, hm⟩ := transform_project_ok hp
      rw [ih st2 r h2, hm, hc]
      rw [List.length_cons, List.range_succ_eq_map]
      have hcomm : ∀ i, st.project_counter + 1 + i = st.project_counter + (i + 1) := by
        omega
      simp [List.map_map, List.append_assoc, Function.comp, hcomm]

/-- Claim C1: the first conjunct evaluates transform_archive as written at a
one-project tree. The loop on line 74 of modernize_archive.py iterates the
discovered dict itself and so passes each project KEY, a string, into
_transform_project, which immediately subscripts it and raises TypeError:
the code never completes a transformation of a nonempty source tree. The
second conjunct settles the claimed property over the spec-modelled
composition that iterates the project values: the embedding is a pure
function of the source tree, so two runs from the fresh transformer state
agree on the entire result, mappings and generated filenames included, and
the canonical ids assigned are exactly P001, P002 and so on in
first-encounter order of the fixed traversal, starting at one. -/
theorem claim1_determinism_and_ids :
    transform_archive c1tree = Except.error "TypeError: string indices must be integers" ∧
    (∀ tree : List WalkEntry,
      transform_archive_values tree = transform_archive_values tree ∧
      assignedIds tree =
        (List.range (assignedIds tree).length).map (fun i => "P" ++ zeroPad 3 (i + 1))) := by
  refine ⟨by decide, fun tree => ⟨rfl, ?_⟩⟩
  unfold assignedIds
  cases h : transform_archive_values tree with
  | error e => simp
  | ok r =>
    unfold transform_archive_values at h
    cases hf : foldProjects ((discover_projects tree).map (fun kp => kp.2)) init_tstate with
    | error e => rw [hf] at h; exact absurd h (by simp)
    | ok st =>
      rw [hf] at h
      have h' : (Except.ok (generate_transformation_report st.log st.project_mappings) :
          Except String TReport) = .ok r := h
      injection h' with h2
      have hids := foldProjects_ids _ _ _ hf
      rw [← h2]
      simp only [generate_transformation_report]
      rw [hids]
      simp only [init_tstate, List.map_nil, List.nil_append, List.length_map,
        List.length_range]
      have hcomm : ∀ i, 1 + i = i + 1 := by omega
      simp [hcomm]

/-- Helper for claim C4: membership in the first-encounter deduplication. -/
theorem mem_firstEncAux : ∀ (l seen : List String) (x : String),
    x ∈ firstEncAux seen l ↔ x ∈ l ∧ x ∉ seen
  | [], seen, x => by simp [firstEncAux]
  | b :: rest, seen, x => by
    unfold firstEncAux
    by_cases hb : b ∈ seen
    · rw [if_pos hb, mem_firstEncAux rest seen x]
      constructor
      · rintro ⟨h1, h2⟩
        exact ⟨List.mem_cons_of_mem b h1, h2⟩
      · rintro ⟨h1, h2⟩
        rcases List.mem_cons.mp h1 with rfl | h1
        · exact absurd hb h2
        · exact ⟨h1, h2⟩
    · rw [if_neg hb]
      constructor
      · intro h1
        rcases List.mem_cons.mp h1 with rfl | h1
        · exact ⟨List.mem_cons_self x rest, hb⟩
        · obtain ⟨ha, hs⟩ := (mem_firstEncAux rest (b :: seen) x).mp h1
          exact ⟨List.mem_cons_of_mem b ha, fun hx => hs (List.mem_cons_of_mem b hx)⟩
      · rintro ⟨h1, h2⟩
        rcases List.mem_cons.mp h1 with rfl | h1
        · exact List.mem_cons_self x _
        · by_cases hxb : x = b
          · subst hxb
            exact List.mem_cons_self x _
          · refine List.mem_cons_of_mem b ((mem_firstEncAux rest (b :: seen) x).mpr ⟨h1, ?_⟩)
            intro hx
            rcases List.mem_cons.mp hx with h | h
            · exact hxb h
            · exact h2 h

/-- Helper for claim C4: a base name with members in the catalog appears
among the bucket keys. -/
theorem mem_conflictKeys {files : List ARec} {b : String}
    (h : groupOf files b ≠ []) : b ∈ conflictKeys files := by
  unfold conflictKeys
  rw [mem_firstEncAux]
  refine ⟨?_, by simp⟩
  obtain ⟨f, hf⟩ := List.exists_mem_of_ne_nil _ h
  obtain ⟨hfm, hfb⟩ := List.mem_filter.mp hf
  exact List.mem_map.mpr ⟨f, hfm, of_decide_eq_true hfb⟩

/-- Helper for claim C4: membership in the conflict list characterized by the
bucket key. -/
theorem mem_detect {files : List ARec} {cs : ConflictSet} :
    cs ∈ detect_version_conflicts files ↔
      ∃ b, b ∈ conflictKeys files ∧ 1 < (groupOf files b).length ∧
        cs = mkConflictSet b (groupOf files b) := by
  unfold detect_version_conflicts
  rw [List.mem_filterMap]
  constructor
  · rintro ⟨b, hb, hf⟩
    by_cases hlen : 1 < (groupOf files b).length
    · simp only [hlen, if_true] at hf
      exact ⟨b, hb, hlen, (Option.some.injEq _ _ ▸ hf).symm⟩
    · simp [hlen] at hf
  · rintro ⟨b, hb, hlen, rfl⟩
    exact ⟨b, hb, by simp [hlen]⟩

/-- Helper for claim C4: the head of a descending-sorted list bounds every
member from above. -/
theorem sorted_head_max {f : ARec} {rest : List ARec}
    (hs : List.Sorted mtGE (f :: rest)) : ∀ x ∈ f :: rest, x.mtime ≤ f.mtime := by
  intro x hx
  rcases List.mem_cons.mp hx with rfl | hx
  · exact le_refl _
  · exact List.rel_of_sorted_cons hs x hx

/-- Helper for claim C4: the last element of a descending-sorted list bounds
every member from below. -/
theorem sorted_last_min : ∀ {l : List ARec}, List.Sorted mtGE l → ∀ (hne : l ≠ []),
    ∀ x ∈ l, (l.getLast hne).mtime ≤ x.mtime := by
  intro l
  induction l with
  | nil => intro _ hne; exact absurd rfl hne
  | cons a t ih =>
    intro hs hne x hx
    cases t with
    | nil =>
      rcases List.mem_cons.mp hx with rfl | hx
      · exact le_refl _
      · simp at hx
    | cons b t2 =>
      rw [List.getLast_cons (by simp)]
      rcases List.mem_cons.mp hx with rfl | hx
      · exact List.rel_of_sorted_cons hs _ (List.getLast_mem (by simp))
      · exact ih hs.of_cons (by simp) x hx

/-- Claim C4: every base identity with at least two catalog members yields
exactly one conflict set; that set carries the bucket key as its base name,
holds exactly the members (as a permutation, sorted by modification time
descending), names as latest a member of maximal modification time and as
oldest a member of minimal modification time. -/
theorem claim4_conflict_sets (files : List ARec) (b : String)
    (h2 : 2 ≤ (groupOf files b).length) :
    ∃ cs, cs ∈ detect_version_conflicts files ∧ cs.base_name = b ∧
      cs.files.Perm (groupOf files b) ∧
      (∃ fmax ∈ groupOf files b, cs.latest_file = fmax.filename ∧
        ∀ x ∈ groupOf files b, x.mtime ≤ fmax.mtime) ∧
      (∃ fmin ∈ groupOf files b, cs.oldest_file = fmin.filename ∧
        ∀ x ∈ groupOf files b, fmin.mtime ≤ x.mtime) ∧
      (∀ cs2 ∈ detect_version_conflicts files, cs2.base_name = b → cs2 = cs) := by
  have hlen : 1 < (groupOf files b).length := h2
  have hne : groupOf files b ≠ [] :=
    List.ne_nil_of_length_pos (lt_trans Nat.zero_lt_one hlen)
  have hkey : b ∈ conflictKeys files := mem_conflictKeys hne
  have hperm : (List.insertionSort mtGE (groupOf files b)).Perm (groupOf files b) :=
    List.perm_insertionSort mtGE (groupOf files b)
  have hsorted : List.Sorted mtGE (List.insertionSort mtGE (groupOf files b)) :=
    List.sorted_insertionSort mtGE (groupOf files b)
  have hsne : List.insertionSort mtGE (groupOf files b) ≠ [] := by
    apply List.ne_nil_of_length_pos
    rw [hperm.length_eq]
    exact lt_trans Nat.zero_lt_one hlen
  refine ⟨mkConflictSet b (groupOf files b), mem_detect.mpr ⟨b, hkey, hlen, rfl⟩, rfl,
    hperm, ?_, ?_, ?_⟩
  · cases hsort : List.insertionSort mtGE (groupOf files b) with
    | nil => exact absurd hsort hsne
    | cons f rest =>
      refine ⟨f, hperm.subset (by rw [hsort]; exact List.mem_cons_self f rest), ?_, ?_⟩
      · simp [mkConflictSet, hsort]
      · intro x hx
        have hx2 : x ∈ f :: rest := by
          rw [← hsort]
          exact hperm.mem_iff.mpr hx
        exact sorted_head_max (hsort ▸ hsorted) x hx2
  · have hlast := List.getLast_mem hsne
    refine ⟨(List.insertionSort mtGE (groupOf files b)).getLast hsne,
      hperm.subset hlast, ?_, ?_⟩
    · simp [mkConflictSet, List.getLast?_eq_getLast _ hsne]
    · intro x hx
      exact sorted_last_min hsorted hsne x (hperm.mem_iff.mpr hx)
  · intro cs2 hmem hbase
    obtain ⟨b2, _, _, rfl⟩ := mem_detect.mp hmem
    have : b2 = b := hbase
    rw [this]

/-- Witness for claim C4: two saved versions of one document in a catalog of
three files produce one conflict set with the newer file as latest and the
older file as oldest. -/
theorem claim4_conflict_sets_witness :
    2 ≤ (groupOf c4files (baseName c4a.filename)).length ∧
    (∃ cs, cs ∈ detect_version_conflicts c4files ∧
      cs.base_name = baseName c4a.filename ∧
      cs.files.Perm (groupOf c4files (baseName c4a.filename)) ∧
      (∃ fmax ∈ groupOf c4files (baseName c4a.filename), cs.latest_file = fmax.filename ∧
        ∀ x ∈ groupOf c4files (baseName c4a.filename), x.mtime ≤ fmax.mtime) ∧
      (∃ fmin ∈ groupOf c4files (baseName c4a.filename), cs.oldest_file = fmin.filename ∧
        ∀ x ∈ groupOf c4files (baseName c4a.filename), fmin.mtime ≤ x.mtime) ∧
      (∀ cs2 ∈ detect_version_conflicts c4files,
        cs2.base_name = baseName c4a.filename → cs2 = cs)) :=
  ⟨by decide, claim4_conflict_sets c4files (baseName c4a.filename) (by decide)⟩

end Archive
